import Mathlib

/-!
# Verification of `conntection_pool.cpp`

A shallow embedding of the SQLite connection pool in `src/conntection_pool.cpp`:
the resource wrapper `SQLiteDBConnection` (lines 12-60) and the pool
`ConnectionPool` (lines 62-129), together with proofs of the specified
properties.

Modelling conventions:
* A `sqlite3*` handle is a `Nat`; the null pointer is `Option.none`.
* The external SQLite engine is an oracle: `sqlite3_open` outcomes are an
  `Option Nat` per attempt (`none` = open failed, in which case the
  constructor sets `m_db = nullptr`), and `sqlite3_exec` is a function
  `Nat → String → ExecResult` from handle and statement to outcome.
* Stream output (`std::cerr` / `std::cout`) is modelled as explicit log lists.
* Connection instances (`std::shared_ptr<SQLiteDBConnection>` values) are
  identified by the index of the loop iteration of `initializePool` that
  created them; pointer identity is identity of these indices.
* The pool's concurrency (`m_mutex`, `m_condVar`) makes every
  `getConnection` pop and every `releaseConnection` push atomic, so
  executions are interleavings of atomic events: the pool is a labelled
  transition system `SysStep` over states holding the available queue, the
  set of checked-out connections, and each connection's wrapper state.
  The `while (m_connections.empty()) wait;` loop of `getConnection`
  (lines 79-82) is additionally embedded directly as `getConnectionLoop`,
  driven by an explicit sequence of wake events, to reason about spurious
  wake-ups.
-/

/-- Outcome of `sqlite3_exec` on a statement, as seen by the wrapper:
either `SQLITE_OK` or an error with the engine's diagnostic message. -/
inductive ExecResult where
  | ok : ExecResult
  | error : String → ExecResult
deriving DecidableEq

/-- The resource wrapper (lines 12-60): its only data member is the
`sqlite3* m_db` handle, `none` standing for the null pointer.  (The unused
`m_sqlMutex` member has no observable behaviour and is omitted.) -/
structure SQLiteDBConnection where
  m_db : Option Nat
deriving DecidableEq

namespace SQLiteDBConnection

/-- The constructor (lines 15-22): `sqlite3_open` either succeeds and stores
a handle in `m_db`, or fails, in which case the failure is written to
`std::cerr` and `m_db` is set back to `nullptr`.  `openResult` is the
oracle's outcome for this open attempt.  Returns the constructed object
together with the `std::cerr` output. -/
def construct (openResult : Option Nat) : SQLiteDBConnection × List String :=
  match openResult with
  | some handle => (⟨some handle⟩, [])
  | none => (⟨none⟩, ["Failed to open database"])

/-- `isConnected` (lines 32-35): `return m_db != nullptr;`. -/
def isConnected (c : SQLiteDBConnection) : Bool :=
  c.m_db.isSome

/-- Everything observable about one `executeQuery` call (lines 37-55):
the `bool` returned to the caller, the wrapper object after the call,
whether `sqlite3_exec` was invoked, and the `std::cerr` / `std::cout`
output. -/
structure ExecEffect where
  result : Bool
  conn : SQLiteDBConnection
  execInvoked : Bool
  cerrLog : List String
  coutLog : List String
deriving DecidableEq

/-- `executeQuery` (lines 37-55).  The guard `if (!isConnected())` is the
test `m_db == nullptr`, so we match on `m_db`: when null, log
`"Not connected to database."` and return `false` without calling
`sqlite3_exec`; otherwise call `sqlite3_exec` (the oracle `ex`) on the
handle, and either log the SQL error and return `false`, or log
`"successful "` and return `true`.  No branch writes to `m_db`. -/
def executeQuery (c : SQLiteDBConnection) (ex : Nat → String → ExecResult)
    (query : String) : ExecEffect :=
  match c.m_db with
  | none =>
      { result := false, conn := c, execInvoked := false
        cerrLog := ["Not connected to database."], coutLog := [] }
  | some handle =>
      match ex handle query with
      | ExecResult.ok =>
          { result := true, conn := c, execInvoked := true
            cerrLog := [], coutLog := ["successful "] }
      | ExecResult.error msg =>
          { result := false, conn := c, execInvoked := true
            cerrLog := ["SQL error: " ++ msg], coutLog := [] }

end SQLiteDBConnection

namespace ConnectionPool

/-- The loop body of `initializePool` (lines 98-112), with `i` the loop
counter: for each open outcome, construct a `SQLiteDBConnection`; if it
`isConnected`, push its index onto the queue, else write
`"Failed to create connection i"` to `std::cerr`.  Returns the queue of
connection indices (front of the `std::queue` = head of the list) and the
`std::cerr` output. -/
def initializePoolAux : List (Option Nat) → Nat → List Nat × List String
  | [], _ => ([], [])
  | o :: rest, i =>
      let connection := (SQLiteDBConnection.construct o).1
      let tail := initializePoolAux rest (i + 1)
      if connection.isConnected then
        (i :: tail.1, tail.2)
      else
        (tail.1, ("Failed to create connection " ++ toString i) :: tail.2)

/-- The `m_connections` queue right after construction with a list of
`m_poolSize` open outcomes (the constructor, lines 65-68, just runs
`initializePool`). -/
def initialAvail (outcomes : List (Option Nat)) : List Nat :=
  (initializePoolAux outcomes 0).1

/-- Number of open attempts that succeeded. -/
def countSome (outcomes : List (Option Nat)) : Nat :=
  (outcomes.filter Option.isSome).length

/-- The wrapper object created at loop iteration `i` of `initializePool`
(indices beyond the pool size denote no object; they are mapped to a
disconnected wrapper and never occur in any reachable pool state). -/
def initConns (outcomes : List (Option Nat)) : Nat → SQLiteDBConnection :=
  fun i => (SQLiteDBConnection.construct ((outcomes.get? i).getD none)).1

/-- The pool's shared mutable state: the `m_connections` queue (head =
front) and the multiset of connections currently checked out by callers.
`held` is bookkeeping of the callers, not a field of the C++ object. -/
structure PoolState where
  avail : List Nat
  held : List Nat
deriving DecidableEq

/-- Pool plus the state of every connection wrapper. -/
structure SysState where
  pool : PoolState
  conns : Nat → SQLiteDBConnection

/-- Atomic events of an execution: a `getConnection` call returning
connection `r`, a `releaseConnection r` call, and an `executeQuery` on a
checked-out connection `r` returning `ok` to its caller. -/
inductive SysEvent where
  | acquire : Nat → SysEvent
  | release : Nat → SysEvent
  | execute : Nat → String → Bool → SysEvent

/-- One atomic step of the pool system, for a fixed `sqlite3_exec` oracle
`ex`.
* `acquire`: `getConnection` (lines 75-88) returns only when the queue is
  non-empty; it then takes the front element and pops it.  The caller now
  holds that connection.
* `release`: `releaseConnection` (lines 90-95) pushes the connection at the
  back of the queue; a legal caller releases only a connection it holds
  (spec §4.2: the caller must pass a Resource previously obtained via
  acquire).
* `execute`: a caller holding `r` runs `executeQuery` on it; only the
  wrapper `r` is touched (the method never references the pool). -/
inductive SysStep (ex : Nat → String → ExecResult) :
    SysState → SysEvent → SysState → Prop where
  | acquire (s : SysState) (r : Nat) (rest : List Nat) :
      s.pool.avail = r :: rest →
      SysStep ex s (SysEvent.acquire r)
        ⟨⟨rest, r :: s.pool.held⟩, s.conns⟩
  | release (s : SysState) (r : Nat) :
      r ∈ s.pool.held →
      SysStep ex s (SysEvent.release r)
        ⟨⟨s.pool.avail ++ [r], s.pool.held.erase r⟩, s.conns⟩
  | execute (s : SysState) (r : Nat) (q : String) :
      r ∈ s.pool.held →
      SysStep ex s
        (SysEvent.execute r q
          ((s.conns r).executeQuery ex q).result)
        ⟨s.pool, Function.update s.conns r ((s.conns r).executeQuery ex q).conn⟩

/-- The state right after `ConnectionPool(dbFile, poolSize)` returns:
the queue holds the successfully opened connections, nothing is checked
out. -/
def initState (outcomes : List (Option Nat)) : SysState :=
  ⟨⟨initialAvail outcomes, []⟩, initConns outcomes⟩

/-- States reachable from construction by any interleaving of
`getConnection` / `releaseConnection` / `executeQuery` calls. -/
inductive Reachable (ex : Nat → String → ExecResult)
    (outcomes : List (Option Nat)) : SysState → Prop where
  | init : Reachable ex outcomes (initState outcomes)
  | step {s e s'} : Reachable ex outcomes s → SysStep ex s e s' →
      Reachable ex outcomes s'

/-- `n` iterations of acquire-then-release of the acquired connection,
from a single thread (each acquire's return is immediately released). -/
inductive RoundTrips (ex : Nat → String → ExecResult) :
    Nat → SysState → SysState → Prop where
  | zero (s : SysState) : RoundTrips ex 0 s s
  | succ {n : Nat} {s s₁ s₂ s' : SysState} {r : Nat} :
      SysStep ex s (SysEvent.acquire r) s₁ →
      SysStep ex s₁ (SysEvent.release r) s₂ →
      RoundTrips ex n s₂ s' →
      RoundTrips ex (n + 1) s s'

/-- A sequence of consecutive `getConnection` calls; `rs` lists the
returned connections in call order. -/
inductive Acquires (ex : Nat → String → ExecResult) :
    SysState → List Nat → SysState → Prop where
  | nil (s : SysState) : Acquires ex s [] s
  | cons {s s₁ s' : SysState} {r : Nat} {rs : List Nat} :
      SysStep ex s (SysEvent.acquire r) s₁ →
      Acquires ex s₁ rs s' →
      Acquires ex s (r :: rs) s'

/-- An event delivered to a thread blocked inside `getConnection`'s wait
loop: either a spurious wake-up, or a `releaseConnection r` by another
thread (which pushes `r` and notifies). -/
inductive WaitEvent where
  | spurious : WaitEvent
  | release : Nat → WaitEvent
deriving DecidableEq

/-- Effect of a wait event on the `m_connections` queue. -/
def applyEvent (q : List Nat) : WaitEvent → List Nat
  | WaitEvent.spurious => q
  | WaitEvent.release r => q ++ [r]

/-- The queue after a prefix of wait events. -/
def waitQueue (q : List Nat) (evs : List WaitEvent) : List Nat :=
  evs.foldl applyEvent q

/-- Direct embedding of the body of `getConnection` (lines 77-88): under
the lock, `while (m_connections.empty()) m_condVar.wait(lock);` then take
and pop the front.  `evs` is the sequence of wake events the environment
will deliver; each wake re-enters the loop condition, so the emptiness
test is re-evaluated after every wake.  Returns `none` when the events are
exhausted with the queue still empty (the thread is still blocked). -/
def getConnectionLoop : List Nat → List WaitEvent → Option (Nat × List Nat)
  | r :: rest, _ => some (r, rest)
  | [], [] => none
  | [], e :: tail => getConnectionLoop (applyEvent [] e) tail

end ConnectionPool

/-! ## Resource-level lemmas -/

namespace SQLiteDBConnection

/-- The constructed wrapper stores exactly the open outcome in `m_db`. -/
theorem construct_m_db (o : Option Nat) : (construct o).1.m_db = o := by
  cases o <;> rfl

/-- The constructed wrapper is connected exactly when the open succeeded. -/
theorem construct_isConnected (o : Option Nat) :
    (construct o).1.isConnected = o.isSome := by
  cases o <;> rfl

/-- `executeQuery` never writes to `m_db`: the wrapper after any call is the
wrapper before it. -/
theorem executeQuery_conn (c : SQLiteDBConnection)
    (ex : Nat → String → ExecResult) (q : String) :
    (c.executeQuery ex q).conn = c := by
  obtain ⟨db⟩ := c
  cases db with
  | none => rfl
  | some handle => cases hx : ex handle q <;> simp [executeQuery, hx]

end SQLiteDBConnection

/-! ## Claims C4, C5, C9 (the resource wrapper) -/

/-- C4: calling `executeQuery` on a disconnected `SQLiteDBConnection` (one
whose open failed) returns `false` to the caller with the
`"Not connected to database."` diagnostic on `std::cerr`, never invokes
`sqlite3_exec`, and leaves the wrapper unchanged. -/
theorem executeQuery_notConnected (c : SQLiteDBConnection)
    (h : c.isConnected = false) (ex : Nat → String → ExecResult) (q : String) :
    (c.executeQuery ex q).result = false ∧
      (c.executeQuery ex q).execInvoked = false ∧
      (c.executeQuery ex q).conn = c ∧
      (c.executeQuery ex q).cerrLog = ["Not connected to database."] := by
  obtain ⟨db⟩ := c
  cases db with
  | none => exact ⟨rfl, rfl, rfl, rfl⟩
  | some handle => simp [SQLiteDBConnection.isConnected] at h

/-- Witness for C4 at a concrete disconnected wrapper: the one produced by a
failed open attempt. -/
theorem executeQuery_notConnected_witness :
    ((⟨none⟩ : SQLiteDBConnection).executeQuery (fun _ _ => ExecResult.ok)
        "SELECT 1;").result = false ∧
      ((⟨none⟩ : SQLiteDBConnection).executeQuery (fun _ _ => ExecResult.ok)
        "SELECT 1;").execInvoked = false ∧
      ((⟨none⟩ : SQLiteDBConnection).executeQuery (fun _ _ => ExecResult.ok)
        "SELECT 1;").conn = (⟨none⟩ : SQLiteDBConnection) ∧
      ((⟨none⟩ : SQLiteDBConnection).executeQuery (fun _ _ => ExecResult.ok)
        "SELECT 1;").cerrLog = ["Not connected to database."] :=
  executeQuery_notConnected ⟨none⟩ rfl (fun _ _ => ExecResult.ok) "SELECT 1;"

/-- C5, counterexample: the value `executeQuery` returns to the caller is a
bare `bool` that carries no diagnostic text — two runs in which the engine
rejects the statement with two different messages hand the caller the very
same value, `false`; the messages are distinguishable only on `std::cerr`,
which is not part of the returned result. -/
theorem executeQuery_result_carries_no_message :
    ((⟨some 0⟩ : SQLiteDBConnection).executeQuery
        (fun _ _ => ExecResult.error "constraint failed") "q").result =
      ((⟨some 0⟩ : SQLiteDBConnection).executeQuery
        (fun _ _ => ExecResult.error "near \x22q\x22: syntax error") "q").result ∧
    ((⟨some 0⟩ : SQLiteDBConnection).executeQuery
        (fun _ _ => ExecResult.error "constraint failed") "q").result = false ∧
    "constraint failed" ≠ "near \x22q\x22: syntax error" := by
  refine ⟨rfl, rfl, ?_⟩
  decide

/-- C5 as amended: on a connected wrapper, `executeQuery` returns to the
caller the bare boolean that is `true` exactly when the engine accepts the
statement; when the engine rejects it with message `m`, the caller receives
`false` while the diagnostic `"SQL error: m"` is written to `std::cerr`
(not carried in the returned value); the failure is returned, never
thrown, and the wrapper is unchanged. -/
theorem executeQuery_connected (c : SQLiteDBConnection) (db : Nat)
    (hdb : c.m_db = some db) (ex : Nat → String → ExecResult) (q : String) :
    (c.executeQuery ex q).result = decide (ex db q = ExecResult.ok) ∧
      (c.executeQuery ex q).cerrLog =
        (match ex db q with
          | ExecResult.ok => []
          | ExecResult.error m => ["SQL error: " ++ m]) ∧
      (c.executeQuery ex q).conn = c := by
  obtain ⟨mdb⟩ := c
  cases hdb
  cases hx : ex db q <;> simp [SQLiteDBConnection.executeQuery, hx]

/-- Witness for the amended C5 at a concrete connected wrapper and an engine
that rejects the statement. -/
theorem executeQuery_connected_witness :
    ((⟨some 0⟩ : SQLiteDBConnection).executeQuery
        (fun _ _ => ExecResult.error "E") "q").result =
      decide ((fun _ _ => ExecResult.error "E") 0 "q" = ExecResult.ok) ∧
      ((⟨some 0⟩ : SQLiteDBConnection).executeQuery
        (fun _ _ => ExecResult.error "E") "q").cerrLog =
        (match (fun _ _ => ExecResult.error "E") 0 "q" with
          | ExecResult.ok => []
          | ExecResult.error m => ["SQL error: " ++ m]) ∧
      ((⟨some 0⟩ : SQLiteDBConnection).executeQuery
        (fun _ _ => ExecResult.error "E") "q").conn = ⟨some 0⟩ :=
  executeQuery_connected ⟨some 0⟩ 0 rfl (fun _ _ => ExecResult.error "E") "q"

/-- C9: the handle is present exactly when the wrapper is connected —
`isConnected` reports precisely the presence of `m_db` and nothing else;
the constructor stores exactly the open outcome, so a failed open leaves
the handle absent and the wrapper disconnected; and no operation ever
changes `m_db` afterwards (`executeQuery`, the only operation, leaves the
wrapper unchanged), so a failed open leaves the wrapper permanently
disconnected. -/
theorem isConnected_iff_handle :
    (∀ c : SQLiteDBConnection, c.isConnected = c.m_db.isSome) ∧
      (∀ o : Option Nat, (SQLiteDBConnection.construct o).1.m_db = o) ∧
      ((SQLiteDBConnection.construct none).1.m_db = none ∧
        (SQLiteDBConnection.construct none).1.isConnected = false) ∧
      (∀ (c : SQLiteDBConnection) (ex : Nat → String → ExecResult) (q : String),
        (c.executeQuery ex q).conn = c) :=
  ⟨fun _ => rfl, SQLiteDBConnection.construct_m_db, ⟨rfl, rfl⟩,
    SQLiteDBConnection.executeQuery_conn⟩

/-! ## Pool-initialization lemmas -/

namespace ConnectionPool

/-- Unfolding of one `initializePool` iteration: the branch taken depends
only on whether the open succeeded. -/
theorem initializePoolAux_cons (o : Option Nat) (rest : List (Option Nat))
    (i : Nat) :
    initializePoolAux (o :: rest) i =
      if o.isSome then
        (i :: (initializePoolAux rest (i + 1)).1,
          (initializePoolAux rest (i + 1)).2)
      else
        ((initializePoolAux rest (i + 1)).1,
          ("Failed to create connection " ++ toString i)
            :: (initializePoolAux rest (i + 1)).2) := by
  cases o <;> simp [initializePoolAux, SQLiteDBConnection.construct,
    SQLiteDBConnection.isConnected]

/-- The queue built by `initializePool` has one entry per successful open. -/
theorem initializePoolAux_length :
    ∀ (outcomes : List (Option Nat)) (i : Nat),
      (initializePoolAux outcomes i).1.length = countSome outcomes
  | [], _ => rfl
  | o :: rest, i => by
      have ih := initializePoolAux_length rest (i + 1)
      cases o with
      | none => simpa [initializePoolAux_cons, countSome] using ih
      | some v => simpa [initializePoolAux_cons, countSome] using ih

/-- Each of the `poolSize` iterations contributes to exactly one side:
a queue entry on success, a `std::cerr` line on failure. -/
theorem initializePoolAux_partition :
    ∀ (outcomes : List (Option Nat)) (i : Nat),
      (initializePoolAux outcomes i).1.length
        + (initializePoolAux outcomes i).2.length = outcomes.length
  | [], _ => rfl
  | o :: rest, i => by
      have ih := initializePoolAux_partition rest (i + 1)
      cases o <;> simp [initializePoolAux_cons] <;> omega

/-- Every index in the queue is at least the starting loop counter. -/
theorem initializePoolAux_le_of_mem :
    ∀ (outcomes : List (Option Nat)) (i j : Nat),
      j ∈ (initializePoolAux outcomes i).1 → i ≤ j
  | [], _, _ => by simp [initializePoolAux]
  | o :: rest, i, j => by
      have ih := initializePoolAux_le_of_mem rest (i + 1) j
      cases o with
      | none =>
          simp only [initializePoolAux_cons, Option.isSome_none,
            Bool.false_eq_true, if_false]
          intro h
          exact Nat.le_of_succ_le (ih h)
      | some v =>
          simp only [initializePoolAux_cons, Option.isSome_some, if_true,
            List.mem_cons]
          rintro (rfl | h)
          · exact le_refl _
          · exact Nat.le_of_succ_le (ih h)

/-- The queue built by `initializePool` never contains the same connection
twice. -/
theorem initializePoolAux_nodup :
    ∀ (outcomes : List (Option Nat)) (i : Nat),
      (initializePoolAux outcomes i).1.Nodup
  | [], _ => by simp [initializePoolAux]
  | o :: rest, i => by
      have ih := initializePoolAux_nodup rest (i + 1)
      have hle := initializePoolAux_le_of_mem rest (i + 1) i
      cases o <;> simp [initializePoolAux_cons, ih]
      intro h
      exact absurd (hle h) (by omega)

/-- Membership in the queue built by `initializePool` starting at counter
`i`: exactly the indices `i + k` whose open attempt `k` succeeded. -/
theorem initializePoolAux_mem :
    ∀ (outcomes : List (Option Nat)) (i j : Nat),
      j ∈ (initializePoolAux outcomes i).1 ↔
        ∃ k h, j = i + k ∧ outcomes.get? k = some (some h)
  | [], i, j => by simp [initializePoolAux]
  | o :: rest, i, j => by
      have ih := initializePoolAux_mem rest (i + 1) j
      cases o with
      | none =>
          simp only [initializePoolAux_cons, Option.isSome_none,
            Bool.false_eq_true, if_false]
          rw [ih]
          constructor
          · rintro ⟨k, h, hj, hk⟩
            exact ⟨k + 1, h, by omega, by simpa using hk⟩
          · rintro ⟨k, h, hj, hk⟩
            cases k with
            | zero => simp at hk
            | succ k' => exact ⟨k', h, by omega, by simpa using hk⟩
      | some v =>
          simp only [initializePoolAux_cons, Option.isSome_some, if_true,
            List.mem_cons]
          rw [ih]
          constructor
          · rintro (rfl | ⟨k, h, hj, hk⟩)
            · exact ⟨0, v, by omega, by simp⟩
            · exact ⟨k + 1, h, by omega, by simpa using hk⟩
          · rintro ⟨k, h, hj, hk⟩
            cases k with
            | zero =>
                left
                omega
            | succ k' => exact Or.inr ⟨k', h, by omega, by simpa using hk⟩

end ConnectionPool

/-! ## Reachability invariant -/

namespace ConnectionPool

/-- The connections in the queue together with the checked-out connections
are, as a multiset, exactly the connections that opened successfully at
construction: no connection is ever created, duplicated or lost by
`getConnection` / `releaseConnection` / `executeQuery`. -/
theorem reachable_perm (ex : Nat → String → ExecResult)
    (outcomes : List (Option Nat)) {s : SysState}
    (h : Reachable ex outcomes s) :
    (s.pool.avail ++ s.pool.held).Perm (initialAvail outcomes) := by
  induction h with
  | init => simp [initState]
  | step hr hstep ih =>
      cases hstep with
      | acquire r rest heq =>
          refine List.Perm.trans ?_ ih
          rw [heq]
          exact List.perm_middle
      | release r hmem =>
          refine List.Perm.trans ?_ ih
          rw [List.append_assoc]
          exact List.Perm.append_left _ (List.perm_cons_erase hmem).symm
      | execute r q hmem => exact ih

/-- Count form of `reachable_perm`: available plus checked-out equals the
number of successful opens. -/
theorem reachable_count (ex : Nat → String → ExecResult)
    (outcomes : List (Option Nat)) {s : SysState}
    (h : Reachable ex outcomes s) :
    s.pool.avail.length + s.pool.held.length = countSome outcomes := by
  have hp := (reachable_perm ex outcomes h).length_eq
  simpa [initialAvail, initializePoolAux_length] using hp

/-- No connection is ever duplicated: the queue and the checked-out set,
taken together, list each connection at most once. -/
theorem reachable_nodup (ex : Nat → String → ExecResult)
    (outcomes : List (Option Nat)) {s : SysState}
    (h : Reachable ex outcomes s) :
    (s.pool.avail ++ s.pool.held).Nodup :=
  ((reachable_perm ex outcomes h).nodup_iff).mpr (initializePoolAux_nodup outcomes 0)

end ConnectionPool

/-! ## Claims C1, C2, C3 (pool bookkeeping) -/

open ConnectionPool in
/-- C1: in every state reachable from construction by any sequence of
`getConnection` and `releaseConnection` calls, the number of available
connections plus the number of checked-out connections equals the number
of connections whose open succeeded at construction, which is at most the
configured pool size. -/
theorem pool_conservation_invariant (ex : Nat → String → ExecResult)
    (outcomes : List (Option Nat)) {s : SysState}
    (h : Reachable ex outcomes s) :
    s.pool.avail.length + s.pool.held.length = countSome outcomes ∧
      countSome outcomes ≤ outcomes.length :=
  ⟨reachable_count ex outcomes h, List.length_filter_le _ _⟩

open ConnectionPool in
/-- Witness for C1 at the freshly constructed pool over two open attempts,
one successful and one failed. -/
theorem pool_conservation_invariant_witness :
    (initState [some 3, none]).pool.avail.length
        + (initState [some 3, none]).pool.held.length
        = countSome [some 3, none] ∧
      countSome [some 3, none] ≤ ([some 3, none] : List (Option Nat)).length :=
  pool_conservation_invariant (fun _ _ => ExecResult.ok) [some 3, none]
    Reachable.init

open ConnectionPool in
/-- C2: a `getConnection` call never hands out a connection some caller
currently holds — whatever it returns was not in the checked-out set — and
the checked-out set never lists the same connection twice.  Since the
mutex serializes the queue operations, any two acquire events of an
execution that both return are consecutive steps of the interleaving, so
the two returned connections are distinct as long as the first is still
held. -/
theorem acquire_mutual_exclusion (ex : Nat → String → ExecResult)
    (outcomes : List (Option Nat)) {s s' : SysState} {r : Nat}
    (hreach : Reachable ex outcomes s)
    (hstep : SysStep ex s (SysEvent.acquire r) s') :
    r ∉ s.pool.held ∧ s.pool.held.Nodup := by
  have hnd := reachable_nodup ex outcomes hreach
  cases hstep with
  | acquire r rest heq =>
      rw [heq, List.cons_append, List.nodup_cons] at hnd
      exact ⟨fun hmem => hnd.1 (List.mem_append_right _ hmem),
        hnd.2.of_append_right⟩

open ConnectionPool in
/-- Witness for C2: the first acquire on a pool constructed from one
successful open. -/
theorem acquire_mutual_exclusion_witness :
    (0 : Nat) ∉ (initState [some 9]).pool.held ∧
      (initState [some 9]).pool.held.Nodup :=
  acquire_mutual_exclusion (fun _ _ => ExecResult.ok) [some 9]
    Reachable.init (SysStep.acquire (initState [some 9]) 0 [] rfl)

open ConnectionPool in
/-- C3: construction attempts exactly `poolSize` opens (one outcome per
attempt); the queue right after construction has exactly one entry per
successful open — it contains index `j` precisely when open attempt `j`
returned a handle — each failed attempt contributes a `std::cerr` line
instead of an error, and when no attempt succeeded the constructor still
returns normally, with an empty queue. -/
theorem initializePool_spec (outcomes : List (Option Nat)) :
    (initialAvail outcomes).length = countSome outcomes ∧
      countSome outcomes ≤ outcomes.length ∧
      (∀ j, j ∈ initialAvail outcomes ↔
        ∃ h, outcomes.get? j = some (some h)) ∧
      (initialAvail outcomes).length
        + (initializePoolAux outcomes 0).2.length = outcomes.length ∧
      (countSome outcomes = 0 → initialAvail outcomes = []) := by
  refine ⟨initializePoolAux_length outcomes 0, List.length_filter_le _ _,
    ?_, initializePoolAux_partition outcomes 0, ?_⟩
  · intro j
    rw [initialAvail, initializePoolAux_mem]
    constructor
    · rintro ⟨k, h, hj, hk⟩
      exact ⟨h, by simpa [hj] using hk⟩
    · rintro ⟨h, hk⟩
      exact ⟨j, h, by omega, hk⟩
  · intro h0
    have := initializePoolAux_length outcomes 0
    rw [initialAvail]
    rw [h0] at this
    exact List.eq_nil_of_length_eq_zero this

/-! ## Acquire sequences and round trips -/

namespace ConnectionPool

/-- A sequence of consecutive `getConnection` calls returns exactly the
front segment of the queue, in queue order, and leaves the remaining
segment as the new queue. -/
theorem acquires_take (ex : Nat → String → ExecResult) :
    ∀ {s : SysState} {rs : List Nat} {s' : SysState}, Acquires ex s rs s' →
      rs = s.pool.avail.take rs.length ∧
        s'.pool.avail = s.pool.avail.drop rs.length := by
  intro s rs s' h
  induction h with
  | nil s => simp
  | cons hstep hrest ih =>
      cases hstep with
      | acquire r rest heq =>
          rw [heq]
          refine ⟨?_, ?_⟩
          · simpa [List.take] using ih.1
          · simpa [List.drop] using ih.2

/-- From any state, the entire current queue can be drained by consecutive
`getConnection` calls. -/
theorem acquires_exists (ex : Nat → String → ExecResult) :
    ∀ (l : List Nat) (s : SysState), s.pool.avail = l →
      ∃ s', Acquires ex s l s'
  | [], s, _ => ⟨s, Acquires.nil s⟩
  | r :: rest, s, h => by
      obtain ⟨s', hrest⟩ := acquires_exists ex rest
        ⟨⟨rest, r :: s.pool.held⟩, s.conns⟩ rfl
      exact ⟨s', Acquires.cons (SysStep.acquire s r rest h) hrest⟩

/-- From any reachable state with nothing checked out, `n` acquire-release
round trips can be performed, and they lead back to a reachable state with
nothing checked out. -/
theorem roundTrips_exists (ex : Nat → String → ExecResult)
    (outcomes : List (Option Nat)) :
    ∀ (n : Nat) {s : SysState}, Reachable ex outcomes s →
      s.pool.held = [] → 1 ≤ countSome outcomes →
      ∃ s', RoundTrips ex n s s' ∧ Reachable ex outcomes s' ∧
        s'.pool.held = []
  | 0, s, hr, hh, _ => ⟨s, RoundTrips.zero s, hr, hh⟩
  | n + 1, s, hr, hh, hp => by
      have hc := reachable_count ex outcomes hr
      rw [hh] at hc
      have hne : s.pool.avail ≠ [] := by
        intro h0
        rw [h0] at hc
        simp at hc
        omega
      obtain ⟨r, rest, heq⟩ := List.exists_cons_of_ne_nil hne
      have h1 : SysStep ex s (SysEvent.acquire r)
          ⟨⟨rest, r :: s.pool.held⟩, s.conns⟩ :=
        SysStep.acquire s r rest heq
      have h2 : SysStep ex (⟨⟨rest, r :: s.pool.held⟩, s.conns⟩ : SysState)
          (SysEvent.release r)
          ⟨⟨rest ++ [r], (r :: s.pool.held).erase r⟩, s.conns⟩ :=
        SysStep.release _ r (List.mem_cons_self r _)
      have hr2 : Reachable ex outcomes
          ⟨⟨rest ++ [r], (r :: s.pool.held).erase r⟩, s.conns⟩ :=
        Reachable.step (Reachable.step hr h1) h2
      have hh2 : (⟨⟨rest ++ [r], (r :: s.pool.held).erase r⟩, s.conns⟩
          : SysState).pool.held = [] := by
        simp [hh, List.erase_cons_head]
      obtain ⟨s', ht, hr', hh'⟩ := roundTrips_exists ex outcomes n hr2 hh2 hp
      exact ⟨s', RoundTrips.succ h1 h2 ht, hr', hh'⟩

end ConnectionPool

/-! ## Claims C6, C10 (sequential behaviour of the queue) -/

open ConnectionPool in
/-- C6: from any reachable state in which nothing is checked out (so the
queue holds all successfully opened connections) and at least one open
succeeded, performing `getConnection` immediately followed by
`releaseConnection` of the returned connection, `n` times in sequence,
returns the pool to a state where nothing is checked out and the number of
available connections again equals the number of successful opens. -/
theorem roundTrip_restores_pool (ex : Nat → String → ExecResult)
    (outcomes : List (Option Nat)) (n : Nat) {s : SysState}
    (hreach : Reachable ex outcomes s) (hheld : s.pool.held = [])
    (hpos : 1 ≤ countSome outcomes) :
    ∃ s', RoundTrips ex n s s' ∧ s'.pool.held = [] ∧
      s'.pool.avail.length = countSome outcomes := by
  obtain ⟨s', ht, hr', hh'⟩ :=
    roundTrips_exists ex outcomes n hreach hheld hpos
  have hc := reachable_count ex outcomes hr'
  rw [hh'] at hc
  simp at hc
  exact ⟨s', ht, hh', hc⟩

open ConnectionPool in
/-- Witness for C6: two round trips on the freshly constructed pool over a
single successful open. -/
theorem roundTrip_restores_pool_witness :
    ∃ s', RoundTrips (fun _ _ => ExecResult.ok) 2 (initState [some 1]) s' ∧
      s'.pool.held = [] ∧ s'.pool.avail.length = countSome [some 1] :=
  roundTrip_restores_pool (fun _ _ => ExecResult.ok) [some 1] 2
    Reachable.init rfl (by decide)

open ConnectionPool in
/-- C10: the `m_connections` queue is FIFO.  Any run of consecutive
`getConnection` calls removes and returns exactly the front segment of the
queue, oldest entry first, in precisely the order the entries were added,
leaving the rest of the queue; and `releaseConnection` appends its
connection at the back of the queue. -/
theorem queue_fifo :
    (∀ (ex : Nat → String → ExecResult) (s : SysState) (rs : List Nat)
        (s' : SysState), Acquires ex s rs s' →
        rs = s.pool.avail.take rs.length ∧
          s'.pool.avail = s.pool.avail.drop rs.length) ∧
      (∀ (ex : Nat → String → ExecResult) (s : SysState) (r : Nat)
        (s' : SysState), SysStep ex s (SysEvent.release r) s' →
        s'.pool.avail = s.pool.avail ++ [r]) := by
  constructor
  · intro ex s rs s' h
    exact acquires_take ex h
  · intro ex s r s' h
    cases h with
    | release r hmem => rfl

open ConnectionPool in
/-- Witness for C10: draining a two-element queue returns the entries
front-first, and a release appends at the back. -/
theorem queue_fifo_witness :
    (([1, 2] : List Nat) =
        (⟨⟨[1, 2], []⟩, fun _ => ⟨none⟩⟩ : SysState).pool.avail.take
          ([1, 2] : List Nat).length ∧
      (⟨⟨[], [2, 1]⟩, fun _ => ⟨none⟩⟩ : SysState).pool.avail =
        (⟨⟨[1, 2], []⟩, fun _ => ⟨none⟩⟩ : SysState).pool.avail.drop
          ([1, 2] : List Nat).length) ∧
      (⟨⟨[5] ++ [9], ([9] : List Nat).erase 9⟩, fun _ => ⟨none⟩⟩
          : SysState).pool.avail =
        (⟨⟨[5], [9]⟩, fun _ => ⟨none⟩⟩ : SysState).pool.avail ++ [9] := by
  constructor
  · exact queue_fifo.1 (fun _ _ => ExecResult.ok)
      ⟨⟨[1, 2], []⟩, fun _ => ⟨none⟩⟩ [1, 2] ⟨⟨[], [2, 1]⟩, fun _ => ⟨none⟩⟩
      (Acquires.cons (SysStep.acquire _ 1 [2] rfl)
        (Acquires.cons (SysStep.acquire _ 2 [] rfl) (Acquires.nil _)))
  · exact queue_fifo.2 (fun _ _ => ExecResult.ok)
      ⟨⟨[5], [9]⟩, fun _ => ⟨none⟩⟩ 9 _
      (SysStep.release _ 9 (List.mem_singleton.mpr rfl))

/-! ## Claims C7, C8 -/

open ConnectionPool in
/-- C7: an `executeQuery` step on a checked-out connection — in particular a
failing one — leaves the entire pool state (queue and checked-out set) and
the connection wrapper unchanged; afterwards the connection can still be
released, and a subsequent run of `getConnection` calls hands it out again
to another caller. -/
theorem execute_failure_isolation (ex : Nat → String → ExecResult)
    (outcomes : List (Option Nat)) {s s' : SysState} {r : Nat} {q : String}
    {b : Bool} (_hreach : Reachable ex outcomes s)
    (hstep : SysStep ex s (SysEvent.execute r q b) s') (hfail : b = false) :
    s'.pool = s.pool ∧ s'.conns r = s.conns r ∧
      ∃ s₂, SysStep ex s' (SysEvent.release r) s₂ ∧
        ∃ rs s₃, Acquires ex s₂ rs s₃ ∧ r ∈ rs := by
  cases hstep with
  | execute r q hmem =>
      refine ⟨rfl, ?_, ?_⟩
      · simp [SQLiteDBConnection.executeQuery_conn]
      · refine ⟨_, SysStep.release _ r hmem, ?_⟩
        obtain ⟨s₃, hacq⟩ := acquires_exists ex (s.pool.avail ++ [r])
          ⟨⟨s.pool.avail ++ [r], s.pool.held.erase r⟩,
            Function.update s.conns r
              ((s.conns r).executeQuery ex q).conn⟩ rfl
        exact ⟨s.pool.avail ++ [r], s₃, hacq,
          List.mem_append_right _ (List.mem_singleton.mpr rfl)⟩

open ConnectionPool in
/-- Witness for C7: on a pool with one successfully opened connection that
has been acquired, a rejected statement on the held connection. -/
theorem execute_failure_isolation_witness :
    (⟨⟨[], [0]⟩, Function.update
          (initState [some 0]).conns 0
          (((initState [some 0]).conns 0).executeQuery
            (fun _ _ => ExecResult.error "E") "q").conn⟩ : SysState).pool
        = (⟨⟨[], [0]⟩, (initState [some 0]).conns⟩ : SysState).pool ∧
      (⟨⟨[], [0]⟩, Function.update
          (initState [some 0]).conns 0
          (((initState [some 0]).conns 0).executeQuery
            (fun _ _ => ExecResult.error "E") "q").conn⟩ : SysState).conns 0
        = (⟨⟨[], [0]⟩, (initState [some 0]).conns⟩ : SysState).conns 0 ∧
      ∃ s₂, SysStep (fun _ _ => ExecResult.error "E")
          (⟨⟨[], [0]⟩, Function.update
            (initState [some 0]).conns 0
            (((initState [some 0]).conns 0).executeQuery
              (fun _ _ => ExecResult.error "E") "q").conn⟩ : SysState)
          (SysEvent.release 0) s₂ ∧
        ∃ rs s₃, Acquires (fun _ _ => ExecResult.error "E") s₂ rs s₃ ∧
          0 ∈ rs :=
  execute_failure_isolation (fun _ _ => ExecResult.error "E") [some 0]
    (Reachable.step Reachable.init
      (SysStep.acquire (initState [some 0]) 0 [] rfl))
    (SysStep.execute (⟨⟨[], [0]⟩, (initState [some 0]).conns⟩ : SysState) 0
      "q" (List.mem_singleton.mpr rfl))
    rfl

open ConnectionPool in
/-- C8: `getConnection` never returns while the queue is empty.  The wait
loop re-checks emptiness after every wake: a blocked call that receives
only spurious wake-ups never returns; whenever the call does return a
connection, the queue as built by the delivered wake events was non-empty
at that point and the returned connection is its front; and at the level of
atomic steps, an acquire event can only occur from a state with a non-empty
queue. -/
theorem getConnection_never_from_empty :
    (∀ evs : List WaitEvent, (∀ e ∈ evs, e = WaitEvent.spurious) →
        getConnectionLoop [] evs = none) ∧
      (∀ (q : List Nat) (evs : List WaitEvent) (r : Nat) (q' : List Nat),
        getConnectionLoop q evs = some (r, q') →
        ∃ i, i ≤ evs.length ∧ waitQueue q (evs.take i) = r :: q') ∧
      (∀ (ex : Nat → String → ExecResult) (s : SysState) (r : Nat)
        (s' : SysState), SysStep ex s (SysEvent.acquire r) s' →
        s.pool.avail ≠ []) := by
  refine ⟨?_, ?_, ?_⟩
  · intro evs h
    induction evs with
    | nil => rfl
    | cons e tail ih =>
        have he := h e (List.mem_cons_self e tail)
        subst he
        exact ih fun e' he' => h e' (List.mem_cons_of_mem _ he')
  · intro q evs
    induction evs generalizing q with
    | nil =>
        intro r q' h
        cases q with
        | nil => exact absurd h (by simp [getConnectionLoop])
        | cons a rest =>
            refine ⟨0, Nat.le_refl 0, ?_⟩
            simp only [getConnectionLoop] at h
            injection h with h'
            injection h' with h1 h2
            simp [waitQueue, h1, h2]
    | cons e tail ih =>
        intro r q' h
        cases q with
        | nil =>
            obtain ⟨i, hi, hq⟩ := ih (applyEvent [] e) r q' h
            refine ⟨i + 1, by simpa using Nat.succ_le_succ hi, ?_⟩
            simpa [waitQueue, List.take] using hq
        | cons a rest =>
            refine ⟨0, Nat.zero_le _, ?_⟩
            simp only [getConnectionLoop] at h
            injection h with h'
            injection h' with h1 h2
            simp [waitQueue, h1, h2]
  · intro ex s r s' h
    cases h with
    | acquire r rest heq =>
        rw [heq]
        exact List.cons_ne_nil r rest

open ConnectionPool in
/-- Witness for C8: two spurious wakes on an empty queue leave the call
blocked; a release wake hands out the released connection; and a concrete
acquire step certifies a non-empty queue. -/
theorem getConnection_never_from_empty_witness :
    getConnectionLoop [] [WaitEvent.spurious, WaitEvent.spurious] = none ∧
      (∃ i, i ≤ ([WaitEvent.release 4] : List WaitEvent).length ∧
        waitQueue [] (([WaitEvent.release 4] : List WaitEvent).take i)
          = 4 :: []) ∧
      (⟨⟨[3], []⟩, fun _ => ⟨none⟩⟩ : SysState).pool.avail ≠ [] :=
  ⟨getConnection_never_from_empty.1 [WaitEvent.spurious, WaitEvent.spurious]
      (by decide),
    getConnection_never_from_empty.2.1 [] [WaitEvent.release 4] 4 [] rfl,
    getConnection_never_from_empty.2.2 (fun _ _ => ExecResult.ok)
      ⟨⟨[3], []⟩, fun _ => ⟨none⟩⟩ 3 ⟨⟨[], [3]⟩, fun _ => ⟨none⟩⟩
      (SysStep.acquire _ 3 [] rfl)⟩
